import Mathlib

/-!
Shallow embedding of the RetailIQ ETL pipeline (`src/preprocessing.py`).

Modelling conventions:
* Prices, ratings and derived numeric columns are modelled as exact
  rationals (`ℚ`); the script's binary floats introduce no behaviour the
  claims depend on except rounding, modelled explicitly by `round2`.
* A pandas cell that can be NaN/missing is an `Option String` (`none` =
  missing value, so `pd.isna` is a `match` on `none`).
* Python code that can raise returns `Option` (`none` = an uncaught
  exception aborts the run).
* Character classes: Python's `\d` matches Unicode digits and
  `str.lower` lowercases Unicode; the model uses ASCII `Char.isDigit` /
  `Char.toLower`, which agree with the source on every input the claims
  mention.
-/

attribute [local semireducible] Rat.mul Rat.inv Rat.add Rat.sub Rat.ofScientific

namespace RetailIQ

/-- `re.sub(r"[^\d.]", "", s)` — keep only digits and the decimal point. -/
def stripNonPriceChars (s : String) : String :=
  String.mk (s.data.filter (fun c => c.isDigit || c == '.'))

/-- Value of a list of decimal digit characters read as a natural number. -/
def digitsToNat (cs : List Char) : Nat :=
  cs.foldl (fun a c => 10 * a + (c.toNat - 48)) 0

/-- Python `float()` applied to a string made only of digits and dots:
it succeeds exactly when the string has at least one digit and at most one
dot, and then denotes `intpart.fracpart`; otherwise it raises `ValueError`
(modelled as `none`). -/
def parseDigitsDots (s : String) : Option ℚ :=
  if s.data.any Char.isDigit ∧ s.data.count '.' ≤ 1 then
    some ((digitsToNat (s.data.takeWhile (fun c => c ≠ '.')) : ℚ) +
      (digitsToNat ((s.data.dropWhile (fun c => c ≠ '.')).drop 1) : ℚ) /
        10 ^ ((s.data.dropWhile (fun c => c ≠ '.')).drop 1).length)
  else none

/-- `clean_price` from `preprocessing.py`:
`if pd.isna(x): return 0.0; return float(re.sub(r"[^\d.]", "", str(x)) or 0)`.
`none` in the result models the `ValueError` that `float` raises when the
stripped string is non-empty but not a valid float literal. -/
def clean_price (x : Option String) : Option ℚ :=
  match x with
  | none => some 0
  | some s =>
    let t := stripNonPriceChars s
    if t.data = [] then some 0 else parseDigitsDots t

/-- Python `str.strip()` on the character list: drop whitespace from both
ends. -/
def pyStrip (cs : List Char) : List Char :=
  ((cs.dropWhile Char.isWhitespace).reverse.dropWhile Char.isWhitespace).reverse

/-- `clean_text`: `"" if pd.isna(x) else str(x).strip().lower()`
(lowercasing char by char; `Char.toLower` is ASCII, which agrees with
Python on every input in the claims). -/
def clean_text (x : Option String) : String :=
  match x with
  | none => ""
  | some s => String.mk ((pyStrip s.data).map Char.toLower)

/-- The unsigned body of a numeral: digits with at most one dot, parsed
by `parseDigitsDots`; anything else fails to parse. -/
def numericBody (cs : List Char) : Option ℚ :=
  if cs.all (fun c => c.isDigit || c == '.') then parseDigitsDots (String.mk cs)
  else none

/-- The optional leading sign of a numeral, applied to the parsed body. -/
def parseSigned : List Char → Option ℚ
  | [] => numericBody []
  | c :: rest =>
    if c = '-' then (numericBody rest).map (fun q => -q)
    else if c = '+' then numericBody rest
    else numericBody (c :: rest)

/-- `pd.to_numeric(s, errors="coerce")` on a single string cell, for the
plain decimal numerals that occur in this dataset: optional sign, digits
with at most one dot (no exponent/inf/nan forms, which never appear in
the claims). `none` models NaN (the coerced failure value). -/
def parseNumeric (s : String) : Option ℚ :=
  parseSigned (pyStrip s.data)

/-- `pd.to_numeric(df["rating"], errors="coerce").fillna(0)` on one cell. -/
def clean_rating (x : Option String) : ℚ :=
  match x with
  | none => 0
  | some s => (parseNumeric s).getD 0

/-- `str.replace(",", "")` — drop every comma. -/
def removeCommas (s : String) : String :=
  String.mk (s.data.filter (fun c => c ≠ ','))

/-- numpy `astype(int)` on a finite float: truncation toward zero. -/
def truncQ (q : ℚ) : Int :=
  if 0 ≤ q then q.floor else q.ceil

/-- The `rating_count` column transform:
`astype(str)` (NaN prints as "nan"), strip commas,
`pd.to_numeric(errors="coerce").fillna(0).astype(int)`. -/
def clean_rating_count (x : Option String) : Int :=
  let s := match x with | none => "nan" | some s => s
  match parseNumeric (removeCommas s) with
  | none => 0
  | some q => truncQ q

/-- The static `category_map` table from `preprocessing.py`. -/
def category_map : List (String × String) :=
  [("electronics", "Electronics"),
   ("computers&accessories", "Computers"),
   ("home&kitchen", "Home & Kitchen"),
   ("health&personalcare", "Personal Care"),
   ("officeproducts", "Stationery"),
   ("homeimprovement", "Home Improvement"),
   ("toys&games", "Toys & Games"),
   ("musicalinstruments", "Musical Instruments"),
   ("car&motorbike", "Automotive")]

/-- `df["category"].str.split("|").str[0]` — first breadcrumb segment. -/
def main_category_raw (category : String) : String :=
  String.mk (category.data.takeWhile (fun c => c ≠ '|'))

/-- `.map(category_map).fillna("Other")` applied to the raw first segment. -/
def main_category (category : String) : String :=
  match category_map.find? (fun p => p.1 == main_category_raw category) with
  | some p => p.2
  | none => "Other"

/-- pandas `.round(2)`: round to two decimal places. The model rounds
half away from zero at exact `.005` ties; pandas uses the float
half-to-even rule there, but no verified fact below sits on a tie. -/
def round2 (q : ℚ) : ℚ :=
  (((q * 100 + 1 / 2 : ℚ).floor : ℤ) : ℚ) / 100

/-- `(actual - discounted) / actual.replace(0, 1) * 100`, rounded to 2
decimals: the denominator substitutes 1 for an exact 0, the numerator
keeps the true value. -/
def discount_percent (actual discounted : ℚ) : ℚ :=
  round2 ((actual - discounted) / (if actual = 0 then 1 else actual) * 100)

/-- `price_savings = actual_price - discounted_price`. -/
def price_savings (actual discounted : ℚ) : ℚ :=
  actual - discounted

/-- `popularity_score = rating * rating_count`. -/
def popularity_score (rating : ℚ) (rating_count : Int) : ℚ :=
  rating * (rating_count : ℚ)

/-- The six `pd.cut` labels, in bin order. -/
inductive Bucket where
  | budget | low | mid | upperMid | premium | luxury
deriving DecidableEq, Repr

/-- Position of a label in the bucket order budget < low < … < luxury. -/
def Bucket.idx : Bucket → Nat
  | .budget => 0
  | .low => 1
  | .mid => 2
  | .upperMid => 3
  | .premium => 4
  | .luxury => 5

/-- `pd.cut(p, bins=[0,500,1000,2000,5000,10000,999999], labels=[...])`
with the pandas defaults `right=True`, `include_lowest=False`: the bins
are the left-open right-closed intervals `(0,500], (500,1000], …,
(10000,999999]`; a value outside every bin (p ≤ 0 or p > 999999) gets the
NaN label, modelled as `none`. -/
def price_bucket (p : ℚ) : Option Bucket :=
  if 0 < p ∧ p ≤ 500 then some .budget
  else if 500 < p ∧ p ≤ 1000 then some .low
  else if 1000 < p ∧ p ≤ 2000 then some .mid
  else if 2000 < p ∧ p ≤ 5000 then some .upperMid
  else if 5000 < p ∧ p ≤ 10000 then some .premium
  else if 10000 < p ∧ p ≤ 999999 then some .luxury
  else none

/-- A raw CSV row: every relevant cell a possibly-missing string. -/
structure RawRecord where
  product_name : Option String
  category : Option String
  discounted_price : Option String
  actual_price : Option String
  rating : Option String
  rating_count : Option String
deriving DecidableEq, Repr

/-- A fully cleaned and feature-engineered row — the column set that
`final_df` projects to, plus nothing else (the helper column
`main_category_raw` is dropped by the projection). -/
structure Row where
  product_name : String
  category : String
  main_category : String
  discounted_price : ℚ
  actual_price : ℚ
  price_savings : ℚ
  discount_percent : ℚ
  rating : ℚ
  rating_count : Int
  popularity_score : ℚ
  price_bucket : Option Bucket
deriving DecidableEq, Repr

/-- Sections 4–6 of the script applied to one row: clean the prices
(can raise), clean text/rating/rating_count, normalize the category and
derive every feature column. -/
def processRow (r : RawRecord) : Option Row := do
  let dp ← clean_price r.discounted_price
  let ap ← clean_price r.actual_price
  let pn := clean_text r.product_name
  let cat := clean_text r.category
  let rt := clean_rating r.rating
  let rc := clean_rating_count r.rating_count
  pure { product_name := pn
         category := cat
         main_category := main_category cat
         discounted_price := dp
         actual_price := ap
         price_savings := price_savings ap dp
         discount_percent := discount_percent ap dp
         rating := rt
         rating_count := rc
         popularity_score := popularity_score rt rc
         price_bucket := price_bucket dp }

/-- Section 7's row predicate: `actual_price > 0` and
`discounted_price >= 0`. -/
def qualityPred (r : Row) : Bool :=
  decide (0 < r.actual_price) && decide (0 ≤ r.discounted_price)

/-- The `drop_duplicates` composite key `(product_name, discounted_price)`. -/
def rowKey (r : Row) : String × ℚ :=
  (r.product_name, r.discounted_price)

/-- `drop_duplicates(subset=..., keep="first")`: walk the rows in order,
keeping a row iff its key has not been seen before. -/
def dedupAux (seen : List (String × ℚ)) : List Row → List Row
  | [] => []
  | r :: rs =>
    if rowKey r ∈ seen then dedupAux seen rs
    else r :: dedupAux (rowKey r :: seen) rs

/-- First-occurrence deduplication by `rowKey`. -/
def dedupKeepFirst (rs : List Row) : List Row :=
  dedupAux [] rs

/-- Section 7 in full: the two price filters, then deduplication. -/
def qualityFilter (rows : List Row) : List Row :=
  dedupKeepFirst (rows.filter qualityPred)

/-- The whole in-memory pipeline: clean/normalize/engineer every row
(a raised exception in any row aborts the run, hence `mapM`), then the
quality filter. The result is exactly the list of rows written to the
`sales` table. -/
def pipeline (input : List RawRecord) : Option (List Row) :=
  (input.mapM processRow).map qualityFilter

/-- `to_sql("sales", conn, if_exists="replace")` followed by commit:
the prior table contents are discarded and the new rows written. -/
def writeSales (_prior newRows : List Row) : List Row :=
  newRows

/-- One batch run against a store whose `sales` table currently holds
`table`: on success the table is fully replaced, on an aborted run the
store is untouched. -/
def runJob (table : List Row) (input : List RawRecord) : List Row :=
  match pipeline input with
  | none => table
  | some rows => writeSales table rows

/-! ### Helper lemmas -/

/-- Deduplication only ever drops rows: the result is a sublist. -/
theorem dedupAux_sublist (seen : List (String × ℚ)) (rs : List Row) :
    (dedupAux seen rs).Sublist rs := by
  induction rs generalizing seen with
  | nil => simp [dedupAux]
  | cons r rs ih =>
    unfold dedupAux
    by_cases h : rowKey r ∈ seen
    · rw [if_pos h]; exact (ih seen).cons r
    · rw [if_neg h]; exact (ih (rowKey r :: seen)).cons₂ r

/-- The rows of `dedupAux seen rs` with key `k` are: none if `k` was
already seen, otherwise the first row of `rs` with key `k`. -/
theorem dedupAux_filter_key (k : String × ℚ) (rs : List Row) :
    ∀ seen : List (String × ℚ),
      (dedupAux seen rs).filter (fun r => decide (rowKey r = k))
        = if k ∈ seen then []
          else (rs.filter (fun r => decide (rowKey r = k))).take 1 := by
  induction rs with
  | nil => intro seen; simp [dedupAux]
  | cons r rs ih =>
    intro seen
    unfold dedupAux
    by_cases hmem : rowKey r ∈ seen
    · rw [if_pos hmem, ih seen]
      by_cases hk : rowKey r = k
      · rw [hk] at hmem
        rw [if_pos hmem, if_pos hmem]
      · rw [List.filter_cons_of_neg (by simpa using hk)]
    · rw [if_neg hmem]
      by_cases hk : rowKey r = k
      · rw [List.filter_cons_of_pos (by simpa using hk)]
        rw [ih (rowKey r :: seen)]
        rw [if_pos (by rw [hk]; exact List.mem_cons_self _ _)]
        rw [if_neg (by rw [← hk]; exact hmem)]
        rw [List.filter_cons_of_pos (by simpa using hk)]
        simp
      · rw [List.filter_cons_of_neg (by simpa using hk)]
        rw [ih (rowKey r :: seen)]
        rw [List.filter_cons_of_neg (by simpa using hk)]
        by_cases hks : k ∈ seen
        · rw [if_pos (List.mem_cons_of_mem _ hks), if_pos hks]
        · rw [if_neg ?_, if_neg hks]
          simp only [List.mem_cons]
          rintro (h | h)
          · exact hk h.symm
          · exact hks h

/-- A successfully parsed digits-and-dot string denotes a value ≥ 0. -/
theorem parseDigitsDots_nonneg (s : String) (q : ℚ)
    (h : parseDigitsDots s = some q) : 0 ≤ q := by
  unfold parseDigitsDots at h
  split_ifs at h
  · have hq := Option.some.inj h
    have h1 : (0 : ℚ) ≤ (digitsToNat (s.data.takeWhile (fun c => c ≠ '.')) : ℚ) :=
      Nat.cast_nonneg _
    have h2 : (0 : ℚ) ≤
        (digitsToNat ((s.data.dropWhile (fun c => c ≠ '.')).drop 1) : ℚ) /
          10 ^ ((s.data.dropWhile (fun c => c ≠ '.')).drop 1).length := by
      positivity
    rw [← hq]
    exact add_nonneg h1 h2

/-- `pyStrip` keeps only characters of the original list. -/
theorem pyStrip_subset (cs : List Char) : ∀ c ∈ pyStrip cs, c ∈ cs := by
  intro c hc
  unfold pyStrip at hc
  have h1 : (cs.dropWhile Char.isWhitespace).Sublist cs := List.dropWhile_sublist _
  have h2 := List.dropWhile_sublist (l := (cs.dropWhile Char.isWhitespace).reverse)
    (p := Char.isWhitespace)
  rw [List.mem_reverse] at hc
  exact h1.subset (by simpa using h2.subset hc)

/-- `main_category` is either the fallback or a value of the table. -/
theorem main_category_cases (cat : String) :
    main_category cat = "Other" ∨ main_category cat ∈ category_map.map Prod.snd := by
  unfold main_category
  cases hf : category_map.find? (fun p => p.1 == main_category_raw cat) with
  | none => exact Or.inl rfl
  | some p => exact Or.inr (List.mem_map_of_mem _ (List.mem_of_find?_eq_some hf))

/-! ### Claim C1 — price-bucket totality and boundary behaviour -/

/-- C1 (counterexample): the claim as stated is false on the code.
`pd.cut` with the default `right=True` and without `include_lowest` puts
a price of exactly 0 in no bucket (NaN), puts a price exactly at the
cut point 500 in the LOWER bucket `budget` (not the higher one `low`),
and puts a price above 999999 in no bucket (not `luxury`). -/
theorem price_bucket_claim_counterexample :
    price_bucket 0 = none ∧
    price_bucket 500 = some Bucket.budget ∧ Bucket.budget ≠ Bucket.low ∧
    price_bucket 1000000 = none := by decide

/-- C1 (amended): for every discounted price `p` with `0 < p ≤ 999999`
the assignment yields exactly one of the six labels; the bins are
left-open right-closed, so a value exactly at a cut point (500, 1000,
2000, 5000, 10000, and also the top edge 999999) belongs to the lower
bucket; `p ≤ 0` (in particular the frequent cleaned value 0) and
`p > 999999` receive no label at all. -/
theorem price_bucket_total_on_range (p : ℚ) :
    (0 < p → p ≤ 999999 → ∃ b, price_bucket p = some b) ∧
    (p ≤ 0 → price_bucket p = none) ∧
    (999999 < p → price_bucket p = none) ∧
    price_bucket 500 = some Bucket.budget ∧
    price_bucket 1000 = some Bucket.low ∧
    price_bucket 2000 = some Bucket.mid ∧
    price_bucket 5000 = some Bucket.upperMid ∧
    price_bucket 10000 = some Bucket.premium ∧
    price_bucket 999999 = some Bucket.luxury := by
  refine ⟨?_, ?_, ?_, by decide, by decide, by decide, by decide, by decide, by decide⟩
  · intro h0 h999
    unfold price_bucket
    split_ifs with h1 h2 h3 h4 h5 h6
    · exact ⟨_, rfl⟩
    · exact ⟨_, rfl⟩
    · exact ⟨_, rfl⟩
    · exact ⟨_, rfl⟩
    · exact ⟨_, rfl⟩
    · exact ⟨_, rfl⟩
    · exfalso
      push_neg at h1 h2 h3 h4 h5 h6
      exact absurd h999 (not_le.mpr (h6 (h5 (h4 (h3 (h2 (h1 h0)))))))
  · intro hp
    unfold price_bucket
    split_ifs with h1 h2 h3 h4 h5 h6
    · exact absurd h1.1 (not_lt.mpr hp)
    · exact absurd h2.1 (not_lt.mpr (by linarith))
    · exact absurd h3.1 (not_lt.mpr (by linarith))
    · exact absurd h4.1 (not_lt.mpr (by linarith))
    · exact absurd h5.1 (not_lt.mpr (by linarith))
    · exact absurd h6.1 (not_lt.mpr (by linarith))
    · rfl
  · intro hp
    unfold price_bucket
    split_ifs with h1 h2 h3 h4 h5 h6
    · exact absurd h1.2 (not_le.mpr (by linarith))
    · exact absurd h2.2 (not_le.mpr (by linarith))
    · exact absurd h3.2 (not_le.mpr (by linarith))
    · exact absurd h4.2 (not_le.mpr (by linarith))
    · exact absurd h5.2 (not_le.mpr (by linarith))
    · exact absurd h6.2 (not_le.mpr (by linarith))
    · rfl

/-- C1 witness: the amended theorem applied at the concrete prices
250, −1 and 1000000. -/
theorem price_bucket_total_on_range_witness :
    (∃ b, price_bucket 250 = some b) ∧
    price_bucket (-1) = none ∧
    price_bucket 1000000 = none :=
  ⟨(price_bucket_total_on_range 250).1 (by norm_num) (by norm_num),
   (price_bucket_total_on_range (-1)).2.1 (by norm_num),
   (price_bucket_total_on_range 1000000).2.2.1 (by norm_num)⟩

/-! ### Claim C9 — bucket assignment is monotone in price -/

/-- Left endpoint of the half-open bin carrying each label. -/
def Bucket.lower : Bucket → ℚ
  | .budget => 0
  | .low => 500
  | .mid => 1000
  | .upperMid => 2000
  | .premium => 5000
  | .luxury => 10000

/-- Right endpoint of the half-open bin carrying each label. -/
def Bucket.upper : Bucket → ℚ
  | .budget => 500
  | .low => 1000
  | .mid => 2000
  | .upperMid => 5000
  | .premium => 10000
  | .luxury => 999999

/-- A labelled price lies in its label's half-open bin. -/
theorem price_bucket_bounds (p : ℚ) (b : Bucket)
    (h : price_bucket p = some b) : Bucket.lower b < p ∧ p ≤ Bucket.upper b := by
  unfold price_bucket at h
  split_ifs at h with h1 h2 h3 h4 h5 h6
  all_goals injection h with h'
  all_goals subst h'
  · exact h1
  · exact h2
  · exact h3
  · exact h4
  · exact h5
  · exact h6

/-- C9: whenever two prices both receive a bucket label, the lower price
receives a bucket that is no higher in the order
budget < low < mid < upper-mid < premium < luxury. -/
theorem price_bucket_mono (p q : ℚ) (bp bq : Bucket) (hpq : p ≤ q)
    (hp : price_bucket p = some bp) (hq : price_bucket q = some bq) :
    bp.idx ≤ bq.idx := by
  have hbp := price_bucket_bounds p bp hp
  have hbq := price_bucket_bounds q bq hq
  have hlt : Bucket.lower bp < Bucket.upper bq := by
    calc Bucket.lower bp < p := hbp.1
    _ ≤ q := hpq
    _ ≤ Bucket.upper bq := hbq.2
  revert hlt
  cases bp <;> cases bq <;> decide

/-- C9 witness: 300 ↦ budget and 1500 ↦ mid are ordered correctly. -/
theorem price_bucket_mono_witness : Bucket.budget.idx ≤ Bucket.mid.idx :=
  price_bucket_mono 300 1500 Bucket.budget Bucket.mid (by norm_num)
    (by decide) (by decide)

/-! ### Claim C2 — clean_price safety -/

/-- C2 (counterexample): `clean_price` is not exception-free. On the
input `"1.2.3"` the regex keeps all three dots, the stripped string is
non-empty, and Python's `float("1.2.3")` raises `ValueError` (modelled
as `none`), so the run aborts instead of degrading to 0.0. -/
theorem clean_price_claim_counterexample :
    clean_price (some "1.2.3") = none := by decide

/-- C2 (amended): `clean_price` returns a non-negative value — with
unparseable-to-empty inputs degrading to 0.0 and null mapping to 0.0 —
for every input whose digit/dot-stripped form is empty or a well-formed
float literal (at least one digit, at most one dot); inputs whose
stripped form is non-empty but ill-formed (such as `"1.2.3"` or `"."`)
raise `ValueError` instead. -/
theorem clean_price_safe (s : String)
    (h : (stripNonPriceChars s).data = [] ∨
      ((stripNonPriceChars s).data.any Char.isDigit = true ∧
        (stripNonPriceChars s).data.count '.' ≤ 1)) :
    (∃ q, clean_price (some s) = some q ∧ 0 ≤ q) ∧ clean_price none = some 0 := by
  refine ⟨?_, rfl⟩
  have hdef : clean_price (some s)
      = if (stripNonPriceChars s).data = [] then some 0
        else parseDigitsDots (stripNonPriceChars s) := rfl
  rw [hdef]
  rcases h with h | h
  · exact ⟨0, by rw [if_pos h], le_refl 0⟩
  · by_cases he : (stripNonPriceChars s).data = []
    · exact ⟨0, by rw [if_pos he], le_refl 0⟩
    · rw [if_neg he]
      unfold parseDigitsDots
      rw [if_pos h]
      refine ⟨_, rfl, ?_⟩
      have h2 : (0 : ℚ) ≤
          (digitsToNat (((stripNonPriceChars s).data.dropWhile
              (fun c => c ≠ '.')).drop 1) : ℚ) /
            10 ^ (((stripNonPriceChars s).data.dropWhile
              (fun c => c ≠ '.')).drop 1).length := by positivity
      exact add_nonneg (Nat.cast_nonneg _) h2

/-- C2 witness: the amended theorem at the currency string `"₹1,099"`. -/
theorem clean_price_safe_witness :
    (∃ q, clean_price (some "₹1,099") = some q ∧ 0 ≤ q) ∧
    clean_price none = some 0 :=
  clean_price_safe "₹1,099" (by decide)

/-! ### Claim C3 — end-to-end scenario row -/

/-- The end-to-end scenario input row of the spec. -/
def wirelessMouseRow : RawRecord :=
  { product_name := some "Wireless Mouse"
    category := some "electronics|accessories|mice"
    discounted_price := some "₹499"
    actual_price := some "₹999"
    rating := some "4.3"
    rating_count := some "1,234" }

/-- C3 (counterexample): on the scenario row the code computes
`popularity_score = 4.3 × 1234 = 5306.2`, not the claimed 5286.2, and
`price_bucket = budget` (499 lies in the right-closed bin (0, 500]),
not the claimed `low`. -/
theorem endToEnd_claim_counterexample :
    (processRow wirelessMouseRow).map Row.popularity_score = some 5306.2 ∧
    (5306.2 : ℚ) ≠ 5286.2 ∧
    (processRow wirelessMouseRow).map Row.price_bucket
      = some (some Bucket.budget) ∧
    some Bucket.budget ≠ some Bucket.low := by decide

/-- C3 (amended): the scenario row is processed to
`main_category = "Electronics"`, `discounted_price = 499.0`,
`actual_price = 999.0`, `discount_percent = 50.05`,
`popularity_score = 5306.2` and `price_bucket = budget`, survives the
quality filter, and is the single row the pipeline emits. -/
theorem endToEnd_wireless_mouse :
    pipeline [wirelessMouseRow] = some [{
      product_name := "wireless mouse"
      category := "electronics|accessories|mice"
      main_category := "Electronics"
      discounted_price := 499
      actual_price := 999
      price_savings := 500
      discount_percent := 50.05
      rating := 4.3
      rating_count := 1234
      popularity_score := 5306.2
      price_bucket := some Bucket.budget }] := by decide

/-! ### Claim C4 — main_category is total, non-empty, in the enum -/

/-- C4: for every cleaned category string, `main_category` is non-empty
and lies in the set of mapped business names union `"Other"`; in
particular an unmapped first segment falls back to `"Other"`. -/
theorem main_category_total (cat : String) :
    main_category cat ≠ "" ∧
    main_category cat ∈ "Other" :: category_map.map Prod.snd ∧
    main_category "unknowntype|foo" = "Other" := by
  refine ⟨?_, ?_, by decide⟩
  · rcases main_category_cases cat with h | h
    · rw [h]; decide
    · simp only [category_map, List.map_cons, List.map_nil, List.mem_cons,
        List.not_mem_nil, or_false] at h
      rcases h with h | h | h | h | h | h | h | h | h <;> rw [h] <;> decide
  · rcases main_category_cases cat with h | h
    · rw [h]; exact List.mem_cons_self _ _
    · exact List.mem_cons_of_mem _ h

/-! ### Claim C5 — quality filter and first-occurrence deduplication -/

/-- C5: the quality filter's output, restricted to any composite key
`k = (product_name, discounted_price)`, is exactly the first surviving
row with that key (`take 1` of the price-filtered rows with key `k`) —
so there is exactly one row per present key, and every retained row has
`actual_price > 0` and `discounted_price ≥ 0`. -/
theorem qualityFilter_first_occurrence (rows : List Row) (k : String × ℚ) :
    (qualityFilter rows).filter (fun r => decide (rowKey r = k))
      = ((rows.filter qualityPred).filter (fun r => decide (rowKey r = k))).take 1 ∧
    ∀ r ∈ qualityFilter rows, 0 < r.actual_price ∧ 0 ≤ r.discounted_price := by
  constructor
  · unfold qualityFilter dedupKeepFirst
    rw [dedupAux_filter_key k _ []]
    rw [if_neg (List.not_mem_nil k)]
  · intro r hr
    unfold qualityFilter dedupKeepFirst at hr
    have h1 : r ∈ rows.filter qualityPred := (dedupAux_sublist [] _).subset hr
    have h2 : qualityPred r = true := (List.mem_filter.mp h1).2
    unfold qualityPred at h2
    rw [Bool.and_eq_true, decide_eq_true_iff, decide_eq_true_iff] at h2
    exact h2

/-- A concrete enriched row used by the witnesses. -/
def procA : Row :=
  { product_name := "a", category := "x", main_category := "Other"
    discounted_price := 100, actual_price := 200, price_savings := 100
    discount_percent := 50, rating := 4, rating_count := 10
    popularity_score := 40, price_bucket := some Bucket.budget }

/-- A second concrete row sharing `procA`'s composite key. -/
def procA2 : Row :=
  { product_name := "a", category := "x", main_category := "Other"
    discounted_price := 100, actual_price := 300, price_savings := 200
    discount_percent := 50, rating := 3, rating_count := 5
    popularity_score := 15, price_bucket := some Bucket.budget }

/-- C5 witness: the theorem at two duplicate-keyed rows and the
retained representative `procA`. -/
theorem qualityFilter_first_occurrence_witness :
    (qualityFilter [procA, procA2]).filter
        (fun r => decide (rowKey r = ("a", 100)))
      = (([procA, procA2].filter qualityPred).filter
          (fun r => decide (rowKey r = ("a", 100)))).take 1 ∧
    (0 < procA.actual_price ∧ 0 ≤ procA.discounted_price) :=
  ⟨(qualityFilter_first_occurrence [procA, procA2] ("a", 100)).1,
   (qualityFilter_first_occurrence [procA, procA2] ("a", 100)).2 procA (by decide)⟩

/-! ### Claim C6 — the replace write is deterministic and idempotent -/

/-- C6: a second run on the same input leaves the `sales` table exactly
as the first run did, and whenever the pipeline succeeds the resulting
table does not depend on the table's prior contents (full-replace
semantics). -/
theorem runJob_replace_deterministic (t t' : List Row) (input : List RawRecord) :
    runJob (runJob t input) input = runJob t input ∧
    ((pipeline input).isSome = true → runJob t input = runJob t' input) := by
  cases h : pipeline input with
  | none =>
    have e : ∀ s : List Row, runJob s input = s := by
      intro s; unfold runJob; rw [h]
    simp only [e, h]
    exact ⟨trivial, fun hs => absurd hs (by simp)⟩
  | some rows =>
    have e : ∀ s : List Row, runJob s input = rows := by
      intro s; unfold runJob; rw [h]; rfl
    simp only [e, h]
    exact ⟨trivial, fun _ => trivial⟩

/-- C6 witness: the theorem at the empty input file and two distinct
prior table states. -/
theorem runJob_replace_deterministic_witness :
    runJob (runJob [] []) [] = runJob [] [] ∧
    runJob ([] : List Row) ([] : List RawRecord) = runJob [procA] [] :=
  ⟨(runJob_replace_deterministic [] [procA] []).1,
   (runJob_replace_deterministic [] [procA] []).2 (by decide)⟩

/-! ### Claim C7 — rating_count cleaning -/

/-- C7 (counterexample): the claim's "always yields a non-negative
integer" fails — the code never floors to non-negative, so the raw
value `"-5"` cleans to the negative integer −5. -/
theorem clean_rating_count_claim_counterexample :
    clean_rating_count (some "-5") = -5 ∧ ¬ (0 : Int) ≤ -5 := by decide

/-- The successfully parsed body of a `to_numeric` string is ≥ 0. -/
theorem numericBody_nonneg (cs : List Char) (q : ℚ)
    (h : numericBody cs = some q) : 0 ≤ q := by
  unfold numericBody at h
  split_ifs at h
  exact parseDigitsDots_nonneg _ _ h

/-- A string without a minus sign never parses to a negative number. -/
theorem parseNumeric_nonneg (s : String) (hns : '-' ∉ s.data) (q : ℚ)
    (h : parseNumeric s = some q) : 0 ≤ q := by
  unfold parseNumeric at h
  cases hps : pyStrip s.data with
  | nil =>
    rw [hps] at h
    simp only [parseSigned] at h
    exact numericBody_nonneg _ _ h
  | cons c rest =>
    rw [hps] at h
    simp only [parseSigned] at h
    have hmem : c ∈ pyStrip s.data := by
      rw [hps]; exact List.mem_cons_self c rest
    have hc : c ≠ '-' := by
      intro hceq
      exact hns (hceq ▸ pyStrip_subset s.data c hmem)
    rw [if_neg hc] at h
    by_cases hp : c = '+'
    · rw [if_pos hp] at h; exact numericBody_nonneg _ _ h
    · rw [if_neg hp] at h; exact numericBody_nonneg _ _ h

/-- C7 (amended): `rating_count` cleaning strips commas, best-effort
parses, substitutes 0 on failure (including missing values), and yields
an integer truncated toward zero — which is non-negative whenever the
raw string contains no minus sign, but negative raw numerals clean to
negative integers. -/
theorem clean_rating_count_amended (s : String) :
    ('-' ∉ s.data → 0 ≤ clean_rating_count (some s)) ∧
    clean_rating_count none = 0 ∧
    clean_rating_count (some "") = 0 ∧
    clean_rating_count (some "1,234") = 1234 := by
  refine ⟨?_, by decide, by decide, by decide⟩
  intro hminus
  have hdef : clean_rating_count (some s) =
      match parseNumeric (removeCommas s) with
      | none => 0
      | some q => truncQ q := rfl
  rw [hdef]
  cases hp : parseNumeric (removeCommas s) with
  | none => exact le_refl 0
  | some q =>
    have hnc : '-' ∉ (removeCommas s).data := by
      intro hc
      exact hminus (List.mem_filter.mp hc).1
    have hnn : 0 ≤ q := parseNumeric_nonneg (removeCommas s) hnc q hp
    show 0 ≤ truncQ q
    unfold truncQ
    rw [if_pos hnn]
    exact Rat.le_floor.mpr (by exact_mod_cast hnn)

/-- C7 witness: the amended theorem at the comma-grouped input
`"1,234"`. -/
theorem clean_rating_count_amended_witness :
    0 ≤ clean_rating_count (some "1,234") ∧
    clean_rating_count none = 0 :=
  ⟨(clean_rating_count_amended "1,234").1 (by decide),
   (clean_rating_count_amended "1,234").2.1⟩

/-! ### Claim C8 — discount percent and its division guard -/

/-- C8: `discount_percent` is the claimed formula — numerator uses the
true `actual_price`, the denominator substitutes 1 exactly when
`actual_price = 0` — and at `actual_price = 0`, `discounted_price = 0`
it computes (no division error) and yields 0.0. -/
theorem discount_percent_guard (a d : ℚ) :
    (a ≠ 0 → discount_percent a d = round2 ((a - d) / a * 100)) ∧
    discount_percent 0 d = round2 ((0 - d) / 1 * 100) ∧
    discount_percent 0 0 = 0 := by
  refine ⟨?_, ?_, by decide⟩
  · intro ha; unfold discount_percent; rw [if_neg ha]
  · unfold discount_percent; rw [if_pos rfl]

/-- C8 witness: the theorem at the scenario prices 999/499 and at the
guarded zero case. -/
theorem discount_percent_guard_witness :
    discount_percent 999 499 = round2 ((999 - 499) / 999 * 100) ∧
    discount_percent 0 0 = 0 :=
  ⟨(discount_percent_guard 999 499).1 (by norm_num),
   (discount_percent_guard 999 0).2.2⟩

/-! ### Claim C10 — pipeline stages preserve input order -/

/-- C10: the price filter keeps surviving rows in order, deduplication
keeps surviving rows in order, and the rows finally written to the
`sales` table are a sublist of the cleaned rows — which are in
input-file order (`mapM` processes row by row). -/
theorem sales_rows_in_input_order (input : List RawRecord) (rows out : List Row)
    (h1 : input.mapM processRow = some rows) (h2 : pipeline input = some out) :
    (rows.filter qualityPred).Sublist rows ∧
    out.Sublist (rows.filter qualityPred) ∧
    out.Sublist rows := by
  have hout : out = qualityFilter rows := by
    unfold pipeline at h2
    rw [h1, Option.map_some'] at h2
    exact (Option.some.inj h2).symm
  subst hout
  exact ⟨List.filter_sublist _, dedupAux_sublist [] _,
    (dedupAux_sublist [] _).trans (List.filter_sublist _)⟩

/-- A concrete raw row that cleans to `procA`. -/
def rawA : RawRecord :=
  { product_name := some "a", category := some "x"
    discounted_price := some "100", actual_price := some "200"
    rating := some "4", rating_count := some "10" }

/-- C10 witness: the theorem at the one-row input `rawA`. -/
theorem sales_rows_in_input_order_witness :
    ([procA].filter qualityPred).Sublist [procA] ∧
    List.Sublist [procA] ([procA].filter qualityPred) ∧
    List.Sublist [procA] [procA] :=
  sales_rows_in_input_order [rawA] [procA] [procA] (by decide) (by decide)

end RetailIQ
